import Mathlib

/-!
Verification of the `gtask` bounded-concurrency task group (`gtask/gtask.go`).

The Go source is shallowly embedded as follows.

* A `Group` value is a record `GroupState`: the configuration fields
  `Concurrent` / `AllowSomeFail`, the lazily created semaphore channel
  (`semaphore : Option Nat` is its capacity, `none` being a nil channel),
  the number of tokens currently held in the channel (`semHeld`), the
  error slice, the two counters, the `sync.WaitGroup` counter (`pending`)
  and the `sync.Once` flag (`onceDone`).
* A task is identified with its outcome (`TaskOutcome`): a nil return, an
  error return carrying the message of the returned error, or a panic
  carrying the `%v`-formatting of its payload.
* The methods of `*Group` become state-passing functions translated line
  by line from the source (`Go`, `Wait`, `runTask`, `joinErrors`, ...).
* Concurrency is an interleaving small-step relation `Step` on a
  configuration holding the group state plus the list of launched but not
  yet finished tasks.  A `launch` step performs a whole `Go` call that
  admits a task (the `once` body, the counter increments, and — on the
  bounded path — the semaphore send, which is enabled only when a buffer
  slot is free); a `finish` step performs a whole goroutine body
  (`runTask` followed, on the bounded path, by the deferred token
  release); a `deniedGo` step is a `Go` call stopped by the fail-fast
  check.  Because the fail-fast check in the source is advisory/racy
  (checked before the launch, not atomically with it), `launch` does not
  require the check to fail: that over-approximates the source's traces
  and only strengthens the invariants proved below.
-/

namespace GTask

/-- The outcome of one submitted task function: `ok` for a nil error
return, `err` for a non-nil error return (carrying the `Error()` string),
`panic` for a panicking task (carrying the `%v` rendering of the
payload). -/
inductive TaskOutcome where
  | ok : TaskOutcome
  | err (msg : String) : TaskOutcome
  | pan (payload : String) : TaskOutcome
deriving DecidableEq

/-- The fields of `gtask.Group`.  `semaphore = none` models a nil
channel; `some cap` a channel created with capacity `cap`.  `semHeld` is
the number of empty-struct tokens currently buffered in the channel,
`pending` the `sync.WaitGroup` counter, `onceDone` whether the
`sync.Once` body has run. -/
structure GroupState where
  concurrent : Int
  allowSomeFail : Bool
  onceDone : Bool
  semaphore : Option Nat
  semHeld : Nat
  errors : List String
  successCount : Nat
  totalTasks : Nat
  pending : Nat
deriving DecidableEq

/-- The zero value of `Group` with the two public fields set: no method
has run yet. -/
def mkGroup (concurrent : Int) (allowSomeFail : Bool) : GroupState :=
  { concurrent := concurrent
    allowSomeFail := allowSomeFail
    onceDone := false
    semaphore := none
    semHeld := 0
    errors := []
    successCount := 0
    totalTasks := 0
    pending := 0 }

/-- The body of `g.once.Do` in `Group.Go` (lines 25–31): on the first
call it allocates the error slice and, when `Concurrent > 0`, creates the
semaphore channel with capacity `Concurrent`; on later calls it does
nothing. -/
def onceInit (g : GroupState) : GroupState :=
  if g.onceDone then g
  else
    { g with
      onceDone := true
      errors := []
      semaphore := if 0 < g.concurrent then some g.concurrent.toNat else none }

/-- `Group.addError` (lines 73–77): append one error to the slice under
the mutex. -/
def addError (g : GroupState) (msg : String) : GroupState :=
  { g with errors := g.errors ++ [msg] }

/-- `Group.addTotalTasks` (lines 80–84). -/
def addTotalTasks (g : GroupState) : GroupState :=
  { g with totalTasks := g.totalTasks + 1 }

/-- `Group.getHasFailed` (lines 87–91): `len(g.errors) > 0`. -/
def getHasFailed (g : GroupState) : Bool :=
  decide (g.errors.length > 0)

/-- `Group.addSuccessCount` (lines 94–98). -/
def addSuccessCount (g : GroupState) : GroupState :=
  { g with successCount := g.successCount + 1 }

/-- `g.wg.Done()`. -/
def wgDone (g : GroupState) : GroupState :=
  { g with pending := g.pending - 1 }

/-- `Group.runTask` (lines 101–117) applied to a task with outcome `o`:
the deferred `recover` turns a panic with payload `p` into
`addError ("task panic: " ++ p)`; an error return is recorded with
`addError`; a nil return increments the success counter; the deferred
`wg.Done` runs on every path. -/
def runTask (g : GroupState) (o : TaskOutcome) : GroupState :=
  wgDone
    (match o with
     | TaskOutcome.ok => addSuccessCount g
     | TaskOutcome.err m => addError g m
     | TaskOutcome.pan p => addError g ("task panic: " ++ p))

/-- Receive one token back from the semaphore channel: the body of the
`defer func() { <-g.semaphore }()` wrapped around `runTask` on the
bounded path of `Group.Go` (line 50). -/
def releaseToken (g : GroupState) : GroupState :=
  { g with semHeld := g.semHeld - 1 }

/-- The complete goroutine body for a task with outcome `o`: on the
unbounded path (`Concurrent == 0`, line 43) just `runTask`; on the
bounded path (lines 49–52) `runTask` followed by the deferred token
release. -/
def taskExit (g : GroupState) (o : TaskOutcome) : GroupState :=
  if g.concurrent = 0 then runTask g o else releaseToken (runTask g o)

/-- What a call to `Group.Go` does with the submitting goroutine. -/
inductive GoOutcome where
  | denied : GoOutcome
  | launched : GoOutcome
  | launchedBounded : GoOutcome
  | blockedForever : GoOutcome
  | blockedOnFull : GoOutcome
deriving DecidableEq

/-- `Group.Go` (lines 23–53) up to the point where the task goroutine is
spawned, evaluated sequentially: run the `once` body, evaluate the
fail-fast check, then increment `totalTasks` and the wait-group counter
and take the unbounded or the bounded path.  `denied` means the
fail-fast check returned early (the task is never invoked);
`launched` / `launchedBounded` mean the goroutine was spawned;
`blockedForever` means the send `g.semaphore <- struct{}{}` is on a nil
channel and never completes; `blockedOnFull` means the send blocks until
a running task frees a buffer slot. -/
def Go (g : GroupState) : GroupState × GoOutcome :=
  let g1 := onceInit g
  if !g1.allowSomeFail && getHasFailed g1 then (g1, GoOutcome.denied)
  else
    let g2 : GroupState := { addTotalTasks g1 with pending := g1.pending + 1 }
    if g2.concurrent = 0 then (g2, GoOutcome.launched)
    else
      match g2.semaphore with
      | none => (g2, GoOutcome.blockedForever)
      | some cap =>
          if g2.semHeld < cap then
            ({ g2 with semHeld := g2.semHeld + 1 }, GoOutcome.launchedBounded)
          else (g2, GoOutcome.blockedOnFull)

/-- `Group.joinErrors` (lines 120–133), inner loop: the running `errMsg`
accumulator gets `"; "` prepended to the next message only when it is
already non-empty. -/
def joinAux (acc : String) : List String → String
  | [] => acc
  | e :: rest => joinAux (if acc = "" then acc ++ e else acc ++ "; " ++ e) rest

/-- `Group.joinErrors` (lines 120–133): `none` models a nil error. -/
def joinErrors (g : GroupState) : Option String :=
  if g.errors.length = 0 then none else some (joinAux "" g.errors)

/-- `Group.getStats` (lines 136–140). -/
def getStats (g : GroupState) : Nat × Nat × List String :=
  (g.successCount, g.totalTasks, g.errors)

/-- `Group.Wait` (lines 56–70) as a state transformer, entered once
`wg.Wait()` has returned (the receiver is threaded through exactly as the
source reads it; both branches of the `AllowSomeFail` test call
`joinErrors`). -/
def WaitSt (g : GroupState) : (Nat × Option String) × GroupState :=
  let stats := getStats g
  let successCount := stats.1
  let errs := stats.2.2
  if errs.length = 0 then ((successCount, none), g)
  else if g.allowSomeFail then ((successCount, joinErrors g), g)
  else ((successCount, joinErrors g), g)

/-- The value returned by `Group.Wait`. -/
def Wait (g : GroupState) : Nat × Option String :=
  (WaitSt g).1

/-- A configuration of the interleaving semantics: the shared group
state plus the launched-but-unfinished tasks. -/
structure Config where
  g : GroupState
  inflight : List TaskOutcome
deriving DecidableEq

/-- A `Go` call can proceed past the semaphore send: either the group is
unbounded, or the channel (as created by the `once` body this very call
runs first) has a free buffer slot. -/
def LaunchEnabled (g : GroupState) : Prop :=
  (onceInit g).concurrent = 0 ∨
    ∃ cap, (onceInit g).semaphore = some cap ∧ (onceInit g).semHeld < cap

/-- The state mutation of an admitting `Go` call: the `once` body, the
`totalTasks` increment, `wg.Add(1)`, and — on the bounded path — the
semaphore send. -/
def launchState (g : GroupState) : GroupState :=
  if (onceInit g).concurrent = 0 then
    { addTotalTasks (onceInit g) with pending := (onceInit g).pending + 1 }
  else
    { addTotalTasks (onceInit g) with
      pending := (onceInit g).pending + 1
      semHeld := (onceInit g).semHeld + 1 }

/-- One interleaving step: an admitting `Go` call launching a task with
outcome `o`; the completion of some in-flight task (the goroutine body
runs, its position in the in-flight list is arbitrary — completion order
is unconstrained); or a `Go` call returning early at the fail-fast
check. -/
inductive Step : Config → Config → Prop where
  | launch (c : Config) (o : TaskOutcome) (h : LaunchEnabled c.g) :
      Step c ⟨launchState c.g, o :: c.inflight⟩
  | finish (c : Config) (o : TaskOutcome) (l1 l2 : List TaskOutcome)
      (h : c.inflight = l1 ++ o :: l2) :
      Step c ⟨taskExit c.g o, l1 ++ l2⟩
  | deniedGo (c : Config)
      (h : (onceInit c.g).allowSomeFail = false ∧ getHasFailed (onceInit c.g) = true) :
      Step c ⟨onceInit c.g, c.inflight⟩

/-- Zero or more interleaving steps. -/
inductive Steps : Config → Config → Prop where
  | refl (c : Config) : Steps c c
  | tail {a b c : Config} : Steps a b → Step b c → Steps a c

/-- The configuration of a freshly created group: no task submitted, no
method called. -/
def initConfig (concurrent : Int) (allowSomeFail : Bool) : Config :=
  ⟨mkGroup concurrent allowSomeFail, []⟩

/-- The separators-and-messages tail of a `"; "`-join. -/
def sepAll : List String → String
  | [] => ""
  | m :: r => "; " ++ m ++ sepAll r

/-- Written from the claim's words, for comparison with `joinErrors`: the
messages of all recorded failures, in order, joined by `"; "` (no leading
or trailing separator added around the join). -/
def specJoin : List String → String
  | [] => ""
  | m :: r => m ++ sepAll r

/-- A group that ran two tasks (unbounded, partial failure allowed)
whose returned errors have messages `""` and `"x"`, in that completion
order. -/
def waitCounterexample : GroupState :=
  taskExit
    (taskExit (launchState (launchState (mkGroup 0 true))) (TaskOutcome.err ""))
    (TaskOutcome.err "x")

/-- A group that ran two tasks whose returned errors have messages `"a"`
and `"x"`, in that completion order. -/
def waitTwoFailures : GroupState :=
  taskExit
    (taskExit (launchState (launchState (mkGroup 0 true))) (TaskOutcome.err "a"))
    (TaskOutcome.err "x")

/-- A group that ran one task whose returned error has the empty
message. -/
def waitEmptyMessage : GroupState :=
  taskExit (launchState (mkGroup 0 true)) (TaskOutcome.err "")

/-- The inductive invariant of the interleaving semantics.  In order: the
accounting equation (every launched task is exactly one success, one
recorded failure, or one in-flight task); the wait-group counter counts
the in-flight tasks; the tokens buffered in the semaphore channel count
the in-flight tasks (none are ever sent when unbounded); the channel
exists, with capacity `Concurrent`, exactly once the `once` body has run
with `Concurrent > 0`; before the `once` body has run nothing has
happened; in the bounded case at most `Concurrent` tasks are in
flight. -/
def Inv (c : Config) : Prop :=
  c.g.successCount + c.g.errors.length + c.inflight.length = c.g.totalTasks
  ∧ c.g.pending = c.inflight.length
  ∧ c.g.semHeld = (if c.g.concurrent = 0 then 0 else c.inflight.length)
  ∧ c.g.semaphore =
      (if c.g.onceDone = true ∧ 0 < c.g.concurrent then some c.g.concurrent.toNat else none)
  ∧ (c.g.onceDone = false →
      c.g.errors = [] ∧ c.g.totalTasks = 0 ∧ c.inflight = [] ∧ c.g.successCount = 0)
  ∧ (0 < c.g.concurrent → c.inflight.length ≤ c.g.concurrent.toNat)

@[simp] theorem onceInit_concurrent (g : GroupState) : (onceInit g).concurrent = g.concurrent := by
  unfold onceInit; split <;> rfl

@[simp] theorem onceInit_allowSomeFail (g : GroupState) :
    (onceInit g).allowSomeFail = g.allowSomeFail := by
  unfold onceInit; split <;> rfl

@[simp] theorem onceInit_onceDone (g : GroupState) : (onceInit g).onceDone = true := by
  unfold onceInit; split <;> simp_all

@[simp] theorem onceInit_semHeld (g : GroupState) : (onceInit g).semHeld = g.semHeld := by
  unfold onceInit; split <;> rfl

@[simp] theorem onceInit_successCount (g : GroupState) :
    (onceInit g).successCount = g.successCount := by
  unfold onceInit; split <;> rfl

@[simp] theorem onceInit_totalTasks (g : GroupState) : (onceInit g).totalTasks = g.totalTasks := by
  unfold onceInit; split <;> rfl

@[simp] theorem onceInit_pending (g : GroupState) : (onceInit g).pending = g.pending := by
  unfold onceInit; split <;> rfl

theorem onceInit_errors (g : GroupState) :
    (onceInit g).errors = if g.onceDone then g.errors else [] := by
  unfold onceInit; split <;> simp_all

theorem onceInit_semaphore (g : GroupState) :
    (onceInit g).semaphore =
      if g.onceDone then g.semaphore
      else if 0 < g.concurrent then some g.concurrent.toNat else none := by
  unfold onceInit; split <;> simp_all

theorem onceInit_self {g : GroupState} (h : g.onceDone = true) : onceInit g = g := by
  unfold onceInit; simp [h]

@[simp] theorem runTask_concurrent (g : GroupState) (o : TaskOutcome) :
    (runTask g o).concurrent = g.concurrent := by
  cases o <;> rfl

@[simp] theorem runTask_allowSomeFail (g : GroupState) (o : TaskOutcome) :
    (runTask g o).allowSomeFail = g.allowSomeFail := by
  cases o <;> rfl

@[simp] theorem runTask_onceDone (g : GroupState) (o : TaskOutcome) :
    (runTask g o).onceDone = g.onceDone := by
  cases o <;> rfl

@[simp] theorem runTask_semaphore (g : GroupState) (o : TaskOutcome) :
    (runTask g o).semaphore = g.semaphore := by
  cases o <;> rfl

@[simp] theorem runTask_semHeld (g : GroupState) (o : TaskOutcome) :
    (runTask g o).semHeld = g.semHeld := by
  cases o <;> rfl

@[simp] theorem runTask_totalTasks (g : GroupState) (o : TaskOutcome) :
    (runTask g o).totalTasks = g.totalTasks := by
  cases o <;> rfl

@[simp] theorem runTask_pending (g : GroupState) (o : TaskOutcome) :
    (runTask g o).pending = g.pending - 1 := by
  cases o <;> rfl

theorem runTask_successCount (g : GroupState) (o : TaskOutcome) :
    (runTask g o).successCount =
      (match o with
       | TaskOutcome.ok => g.successCount + 1
       | _ => g.successCount) := by
  cases o <;> rfl

theorem runTask_errors (g : GroupState) (o : TaskOutcome) :
    (runTask g o).errors =
      (match o with
       | TaskOutcome.ok => g.errors
       | TaskOutcome.err m => g.errors ++ [m]
       | TaskOutcome.pan p => g.errors ++ ["task panic: " ++ p]) := by
  cases o <;> rfl

theorem runTask_tally (g : GroupState) (o : TaskOutcome) :
    (runTask g o).successCount + (runTask g o).errors.length
      = g.successCount + g.errors.length + 1 := by
  cases o <;> simp [runTask_successCount, runTask_errors] <;> omega

@[simp] theorem taskExit_concurrent (g : GroupState) (o : TaskOutcome) :
    (taskExit g o).concurrent = g.concurrent := by
  unfold taskExit; split <;> simp [releaseToken]

@[simp] theorem taskExit_onceDone (g : GroupState) (o : TaskOutcome) :
    (taskExit g o).onceDone = g.onceDone := by
  unfold taskExit; split <;> simp [releaseToken]

@[simp] theorem taskExit_semaphore (g : GroupState) (o : TaskOutcome) :
    (taskExit g o).semaphore = g.semaphore := by
  unfold taskExit; split <;> simp [releaseToken]

@[simp] theorem taskExit_pending (g : GroupState) (o : TaskOutcome) :
    (taskExit g o).pending = g.pending - 1 := by
  unfold taskExit; split <;> simp [releaseToken]

@[simp] theorem taskExit_successCount (g : GroupState) (o : TaskOutcome) :
    (taskExit g o).successCount = (runTask g o).successCount := by
  unfold taskExit; split <;> simp [releaseToken]

@[simp] theorem taskExit_errors (g : GroupState) (o : TaskOutcome) :
    (taskExit g o).errors = (runTask g o).errors := by
  unfold taskExit; split <;> simp [releaseToken]

@[simp] theorem taskExit_totalTasks (g : GroupState) (o : TaskOutcome) :
    (taskExit g o).totalTasks = g.totalTasks := by
  unfold taskExit; split <;> simp [releaseToken]

theorem taskExit_semHeld (g : GroupState) (o : TaskOutcome) :
    (taskExit g o).semHeld = if g.concurrent = 0 then g.semHeld else g.semHeld - 1 := by
  unfold taskExit; split <;> simp_all [releaseToken]

@[simp] theorem launchState_concurrent (g : GroupState) :
    (launchState g).concurrent = g.concurrent := by
  unfold launchState addTotalTasks; split <;> simp

@[simp] theorem launchState_onceDone (g : GroupState) : (launchState g).onceDone = true := by
  unfold launchState addTotalTasks; split <;> simp

@[simp] theorem launchState_totalTasks (g : GroupState) :
    (launchState g).totalTasks = g.totalTasks + 1 := by
  unfold launchState addTotalTasks; split <;> simp

@[simp] theorem launchState_pending (g : GroupState) :
    (launchState g).pending = g.pending + 1 := by
  unfold launchState addTotalTasks; split <;> simp

@[simp] theorem launchState_successCount (g : GroupState) :
    (launchState g).successCount = g.successCount := by
  unfold launchState addTotalTasks; split <;> simp

theorem launchState_errors (g : GroupState) :
    (launchState g).errors = (onceInit g).errors := by
  unfold launchState addTotalTasks; split <;> simp

theorem launchState_semaphore (g : GroupState) :
    (launchState g).semaphore = (onceInit g).semaphore := by
  unfold launchState addTotalTasks; split <;> simp

theorem launchState_semHeld (g : GroupState) :
    (launchState g).semHeld = if g.concurrent = 0 then g.semHeld else g.semHeld + 1 := by
  unfold launchState addTotalTasks
  rcases Classical.em (g.concurrent = 0) with hc | hc <;> simp [hc]

theorem Inv_init (concurrent : Int) (allowSomeFail : Bool) :
    Inv (initConfig concurrent allowSomeFail) := by
  simp [Inv, initConfig, mkGroup]

theorem Inv_step {c c' : Config} (hI : Inv c) (hs : Step c c') : Inv c' := by
  obtain ⟨h1, h2, h3, h4, h5, h6⟩ := hI
  cases hs with
  | launch o hL =>
      refine ⟨?_, ?_, ?_, ?_, ?_, ?_⟩
      · simp only [launchState_successCount, launchState_errors, launchState_totalTasks,
          onceInit_errors, List.length_cons]
        by_cases hd : c.g.onceDone = true
        · simp only [hd, if_pos]; omega
        · have hd' : c.g.onceDone = false := by simpa using hd
          obtain ⟨he, ht, hfl, hsc⟩ := h5 hd'
          simp [hd', he, ht, hfl, hsc]
      · simp [h2]
      · simp only [launchState_semHeld, launchState_concurrent, List.length_cons, h3]
        by_cases hc : c.g.concurrent = 0 <;> simp [hc]
      · simp only [launchState_semaphore, launchState_onceDone, launchState_concurrent,
          onceInit_semaphore, true_and]
        by_cases hd : c.g.onceDone = true
        · rw [if_pos hd, h4]
          by_cases hp : (0:Int) < c.g.concurrent <;> simp [hd, hp]
        · have hd' : c.g.onceDone = false := by simpa using hd
          simp [hd']
      · intro hK; simp at hK
      · intro hpos
        simp only [launchState_concurrent] at hpos
        simp only [launchState_concurrent, List.length_cons]
        rcases hL with hL | ⟨cap, hcap, hlt⟩
        · rw [onceInit_concurrent] at hL; omega
        · rw [onceInit_semaphore] at hcap
          rw [onceInit_semHeld] at hlt
          have hcapval : cap = c.g.concurrent.toNat := by
            by_cases hd : c.g.onceDone = true
            · rw [if_pos (by simp [hd]), h4, if_pos ⟨hd, hpos⟩] at hcap
              exact (Option.some_inj.mp hcap).symm
            · have hd' : c.g.onceDone = false := by simpa using hd
              rw [if_neg (by simp [hd']), if_pos hpos] at hcap
              exact (Option.some_inj.mp hcap).symm
          have hne : ¬ c.g.concurrent = 0 := by omega
          rw [h3, if_neg hne] at hlt
          omega
  | finish o l1 l2 h =>
      have hlen : c.inflight.length = l1.length + l2.length + 1 := by
        rw [h]; simp only [List.length_append, List.length_cons]; omega
      have hne : c.inflight ≠ [] := by
        intro hK; rw [hK] at hlen; simp at hlen
      have hdone : c.g.onceDone = true := by
        by_contra hd
        exact hne (h5 (by simpa using hd)).2.2.1
      refine ⟨?_, ?_, ?_, ?_, ?_, ?_⟩
      · simp only [taskExit_successCount, taskExit_errors, taskExit_totalTasks,
          List.length_append]
        have := runTask_tally c.g o
        omega
      · simp only [taskExit_pending, h2, hlen, List.length_append]
        omega
      · simp only [taskExit_semHeld, taskExit_concurrent, h3, List.length_append]
        by_cases hc : c.g.concurrent = 0 <;> simp [hc, hlen]
      · simp [taskExit_semaphore, h4, hdone]
      · intro hK; simp [hdone] at hK
      · intro hpos
        simp only [taskExit_concurrent] at hpos
        have := h6 hpos
        simp only [taskExit_concurrent, List.length_append]
        omega
  | deniedGo hd =>
      have hdone : c.g.onceDone = true := by
        by_contra hK
        have hK' : c.g.onceDone = false := by simpa using hK
        have hgf : getHasFailed (onceInit c.g) = false := by
          simp [getHasFailed, onceInit_errors, hK']
        rw [hgf] at hd
        exact Bool.false_ne_true hd.2
      rw [onceInit_self hdone]
      exact ⟨h1, h2, h3, h4, h5, h6⟩

theorem Inv_steps {c c' : Config} (hI : Inv c) (hs : Steps c c') : Inv c' := by
  induction hs with
  | refl => exact hI
  | tail hab hbc ih => exact Inv_step ih hbc

theorem Steps_head {a b c : Config} (hab : Step a b) (hbc : Steps b c) : Steps a c := by
  induction hbc with
  | refl => exact Steps.tail (Steps.refl a) hab
  | tail h1 h2 ih => exact Steps.tail ih h2

/-- Every in-flight task can always run its goroutine body, so any
configuration can be drained: finishing the tasks one by one empties the
in-flight list. -/
theorem drain (fl : List TaskOutcome) :
    ∀ g : GroupState, ∃ g', Steps ⟨g, fl⟩ ⟨g', []⟩ := by
  induction fl with
  | nil => exact fun g => ⟨g, Steps.refl _⟩
  | cons o rest ih =>
      intro g
      obtain ⟨g', hg'⟩ := ih (taskExit g o)
      exact ⟨g', Steps_head (Step.finish ⟨g, o :: rest⟩ o [] rest rfl) hg'⟩

theorem Step_concurrent {c c' : Config} (h : Step c c') : c'.g.concurrent = c.g.concurrent := by
  cases h <;> simp

theorem Steps_concurrent {c c' : Config} (h : Steps c c') : c'.g.concurrent = c.g.concurrent := by
  induction h with
  | refl => rfl
  | tail h1 h2 ih => rw [Step_concurrent h2, ih]

theorem deniedGo_onceDone {g : GroupState} (h : getHasFailed (onceInit g) = true) :
    g.onceDone = true := by
  by_contra hK
  have hK' : g.onceDone = false := by simpa using hK
  have hgf : getHasFailed (onceInit g) = false := by
    simp [getHasFailed, onceInit_errors, hK']
  rw [hgf] at h
  exact Bool.false_ne_true h

theorem Go_semaphore (g : GroupState) : (Go g).1.semaphore = (onceInit g).semaphore := by
  simp only [Go]
  split
  · rfl
  · split
    · rfl
    · split
      · rfl
      · split
        · rfl
        · rfl

theorem WaitSt_state (g : GroupState) : (WaitSt g).2 = g := by
  simp only [WaitSt]
  split
  · rfl
  · split
    · rfl
    · rfl

theorem Wait_eq (g : GroupState) :
    Wait g = (g.successCount, if g.errors.length = 0 then none else joinErrors g) := by
  unfold Wait WaitSt getStats
  by_cases h0 : g.errors.length = 0
  · simp [h0]
  · by_cases hb : g.allowSomeFail <;> simp [h0, hb]

theorem joinAux_nonempty (msgs : List String) :
    ∀ acc : String, acc ≠ "" → joinAux acc msgs = acc ++ sepAll msgs := by
  induction msgs with
  | nil => intro acc h; simp [joinAux, sepAll]
  | cons m rest ih =>
      intro acc h
      have hne : acc ++ "; " ++ m ≠ "" := by
        intro hK
        have hlen := congrArg String.length hK
        simp only [String.length_append, String.length_empty] at hlen
        have : acc.length = 0 := by omega
        rcases acc with ⟨d⟩
        cases d with
        | nil => exact h rfl
        | cons x xs => simp [String.length] at this
      rw [joinAux, if_neg h, ih (acc ++ "; " ++ m) hne, sepAll]
      simp [String.append_assoc]

theorem joinErrors_specJoin {g : GroupState} {m : String} {rest : List String}
    (he : g.errors = m :: rest) (hm : m ≠ "") :
    joinErrors g = some (specJoin (m :: rest)) := by
  unfold joinErrors
  rw [he]
  rw [if_neg (by simp)]
  have h1 : joinAux "" (m :: rest) = joinAux m rest := by
    rw [joinAux, if_pos rfl, String.empty_append]
  rw [h1, joinAux_nonempty rest m hm]
  rfl

/-- The complete characterization of the source's accumulator loop
started from the empty string: while every message seen so far is empty
the accumulator stays empty and no separator is emitted, so the result
is the `"; "`-join of the messages that follow the leading empty ones. -/
theorem joinAux_empty_acc (msgs : List String) :
    joinAux "" msgs = specJoin (msgs.dropWhile (fun s => s = "")) := by
  induction msgs with
  | nil => rfl
  | cons m rest ih =>
      by_cases hm : m = ""
      · subst hm
        rw [joinAux, if_pos rfl, String.empty_append, ih]
        simp [List.dropWhile_cons]
      · rw [joinAux, if_pos rfl, String.empty_append, joinAux_nonempty rest m hm]
        have hd : (m :: rest).dropWhile (fun s => s = "") = m :: rest := by
          simp [List.dropWhile_cons, hm]
        rw [hd]
        rfl

/-- C1: in every reachable configuration with no unit still in flight
(in particular once `Wait` has returned), `successCount` plus the number
of recorded failures equals `totalTasks`: each admitted unit is counted
exactly once, as one success or as exactly one recorded failure. -/
theorem claim_C1 (concurrent : Int) (allowSomeFail : Bool) (c : Config)
    (hreach : Steps (initConfig concurrent allowSomeFail) c)
    (hquiet : c.inflight = []) :
    c.g.successCount + c.g.errors.length = c.g.totalTasks := by
  obtain ⟨h1, -, -, -, -, -⟩ := Inv_steps (Inv_init concurrent allowSomeFail) hreach
  rw [hquiet] at h1
  simpa using h1

/-- Witness for C1: launch one succeeding task on an unbounded group and
let it finish; the accounting equation holds in the quiescent state. -/
theorem claim_C1_witness :
    (taskExit (launchState (mkGroup 0 false)) TaskOutcome.ok).successCount
      + (taskExit (launchState (mkGroup 0 false)) TaskOutcome.ok).errors.length
      = (taskExit (launchState (mkGroup 0 false)) TaskOutcome.ok).totalTasks :=
  claim_C1 0 false ⟨taskExit (launchState (mkGroup 0 false)) TaskOutcome.ok, []⟩
    (Steps.tail
      (Steps.tail (Steps.refl _)
        (Step.launch (initConfig 0 false) TaskOutcome.ok (Or.inl (by decide))))
      (Step.finish ⟨launchState (mkGroup 0 false), [TaskOutcome.ok]⟩ TaskOutcome.ok [] [] rfl))
    rfl

/-- C2 (amended): `Wait` returns the current `successCount`; it returns
no error when the failure list is empty, and whenever at least one
failure was recorded it returns a single non-nil error — independently
of `AllowSomeFail` — whose message combines the recorded messages in
append order with no de-duplication, inserting the `"; "` separator
before a message only while the accumulated message is non-empty:
exactly the `"; "`-join of the messages after the leading empty ones,
and the plain `"; "`-join whenever the first recorded message is
non-empty.  (As stated the claim asserted the plain join even when
leading messages are empty — see the counterexample.) -/
theorem claim_C2 (g : GroupState) :
    (Wait g).1 = g.successCount
    ∧ (g.errors = [] → (Wait g).2 = none)
    ∧ (g.errors ≠ [] →
        (Wait g).2 = some (specJoin (g.errors.dropWhile (fun s => s = ""))))
    ∧ (∀ m rest, g.errors = m :: rest → m ≠ "" → (Wait g).2 = some (specJoin (m :: rest)))
    ∧ (∀ b, Wait { g with allowSomeFail := b } = Wait g) := by
  refine ⟨?_, ?_, ?_, ?_, ?_⟩
  · rw [Wait_eq]
  · intro h; rw [Wait_eq]; simp [h]
  · intro h
    have hlen : ¬ g.errors.length = 0 := by
      have := List.length_pos.mpr h
      omega
    rw [Wait_eq, if_neg hlen]
    unfold joinErrors
    rw [if_neg hlen]
    exact congrArg some (joinAux_empty_acc g.errors)
  · intro m rest he hm
    rw [Wait_eq]
    simp only [he, List.length_cons]
    rw [if_neg (by simp)]
    exact joinErrors_specJoin he hm
  · intro b
    rw [Wait_eq, Wait_eq]
    rfl

/-- Counterexample for C2 as stated: when the first recorded failure has
message `""` and the second has message `"x"`, the combined error's
message is `"x"`, not the `"; "`-join `"; x"` of the two messages. -/
theorem claim_C2_counterexample :
    waitCounterexample.errors = ["", "x"]
    ∧ (Wait waitCounterexample).2 = some "x"
    ∧ specJoin waitCounterexample.errors = "; x"
    ∧ (Wait waitCounterexample).2 ≠ some (specJoin waitCounterexample.errors) := by
  refine ⟨by decide, by decide, by decide, by decide⟩

/-- Witness for C2: a group with no failures yields no error; one whose
only recorded failure has the empty message still yields a non-nil
error (with empty message); and one with recorded failures `"a"`, `"x"`
yields the `"; "`-joined message. -/
theorem claim_C2_witness :
    (Wait (mkGroup 0 false)).2 = none
    ∧ (Wait waitEmptyMessage).2 = some ""
    ∧ (Wait waitTwoFailures).2 = some (specJoin ["a", "x"]) :=
  ⟨(claim_C2 (mkGroup 0 false)).2.1 rfl,
   (claim_C2 waitEmptyMessage).2.2.1 (by decide),
   (claim_C2 waitTwoFailures).2.2.2.1 "a" ["x"] (by decide) (by decide)⟩

/-- C3: a panicking unit is converted by the wrapper into exactly one
recorded failure whose message is `"task panic: "` followed by the
payload, `successCount` is not incremented, the wait-group counter is
still decremented, and the panic does not propagate: whatever other
units are in flight, every one of them can still finish, so `Wait`
still returns. -/
theorem claim_C3 (g : GroupState) (p : String) :
    (runTask g (TaskOutcome.pan p)).errors = g.errors ++ ["task panic: " ++ p]
    ∧ (runTask g (TaskOutcome.pan p)).successCount = g.successCount
    ∧ (runTask g (TaskOutcome.pan p)).pending = g.pending - 1
    ∧ ∀ fl : List TaskOutcome,
        ∃ g', Steps ⟨taskExit g (TaskOutcome.pan p), fl⟩ ⟨g', []⟩ :=
  ⟨rfl, rfl, rfl, fun fl => drain fl _⟩

/-- C4: on every exit path of the goroutine body — success, returned
error, or panic — the wait-group counter is decremented exactly once,
the semaphore token is released exactly once on the bounded path, and
the semaphore is untouched on the unbounded path. -/
theorem claim_C4 (g : GroupState) (o : TaskOutcome) (hp : 0 < g.pending) :
    (taskExit g o).pending + 1 = g.pending
    ∧ (g.concurrent = 0 → (taskExit g o).semHeld = g.semHeld)
    ∧ (g.concurrent ≠ 0 → 0 < g.semHeld → (taskExit g o).semHeld + 1 = g.semHeld) := by
  refine ⟨?_, ?_, ?_⟩
  · rw [taskExit_pending]; omega
  · intro hc; rw [taskExit_semHeld, if_pos hc]
  · intro hc hs; rw [taskExit_semHeld, if_neg hc]; omega

/-- Witness for C4: a panicking task on a group bounded at 2 releases
its token and decrements the pending count exactly once. -/
theorem claim_C4_witness :
    ((taskExit (launchState (mkGroup 2 false)) (TaskOutcome.pan "p")).pending + 1
        = (launchState (mkGroup 2 false)).pending)
    ∧ ((launchState (mkGroup 2 false)).concurrent = 0 →
        (taskExit (launchState (mkGroup 2 false)) (TaskOutcome.pan "p")).semHeld
          = (launchState (mkGroup 2 false)).semHeld)
    ∧ ((launchState (mkGroup 2 false)).concurrent ≠ 0 →
        0 < (launchState (mkGroup 2 false)).semHeld →
        (taskExit (launchState (mkGroup 2 false)) (TaskOutcome.pan "p")).semHeld + 1
          = (launchState (mkGroup 2 false)).semHeld) :=
  claim_C4 (launchState (mkGroup 2 false)) (TaskOutcome.pan "p") (by decide)

/-- C5: with `AllowSomeFail = false`, a `Go` call made when a failure is
already recorded (and the one-time setup has already run, as it must
have for a failure to exist) returns without invoking the unit and
without changing any field of the group. -/
theorem claim_C5 (g : GroupState) (hinit : g.onceDone = true)
    (hfail : g.allowSomeFail = false) (herr : g.errors ≠ []) :
    Go g = (g, GoOutcome.denied) := by
  have hhf : getHasFailed g = true := by
    simp only [getHasFailed, decide_eq_true_eq]
    exact List.length_pos.mpr herr
  simp [Go, onceInit_self hinit, hfail, hhf]

/-- Witness for C5: after one failed task on a fail-fast group, a
further submission is a denied no-op. -/
theorem claim_C5_witness :
    Go (taskExit (launchState (mkGroup 0 false)) (TaskOutcome.err "boom"))
      = (taskExit (launchState (mkGroup 0 false)) (TaskOutcome.err "boom"), GoOutcome.denied) :=
  claim_C5 _ (by decide) (by decide) (by decide)

/-- C6: with a bound `Concurrent = C > 0`, every reachable configuration
has at most `C` units in flight, and from any reachable configuration
the in-flight units can all finish, after which the wait-group counter
is zero, so `Wait` returns. -/
theorem claim_C6 (C : Int) (hC : 0 < C) (allowSomeFail : Bool) (c : Config)
    (hreach : Steps (initConfig C allowSomeFail) c) :
    c.inflight.length ≤ C.toNat
    ∧ ∃ c', Steps c c' ∧ c'.inflight = [] ∧ c'.g.pending = 0 := by
  have hI := Inv_steps (Inv_init C allowSomeFail) hreach
  have hcon : c.g.concurrent = C := by
    rw [Steps_concurrent hreach]; rfl
  constructor
  · have h6 := hI.2.2.2.2.2
    rw [hcon] at h6
    exact h6 hC
  · obtain ⟨g', hdrain⟩ := drain c.inflight c.g
    refine ⟨⟨g', []⟩, hdrain, rfl, ?_⟩
    have hI' := Inv_steps hI hdrain
    simpa using hI'.2.1

/-- Witness for C6: the freshly created group bounded at 1. -/
theorem claim_C6_witness :
    (initConfig 1 false).inflight.length ≤ (1 : Int).toNat
    ∧ ∃ c', Steps (initConfig 1 false) c' ∧ c'.inflight = [] ∧ c'.g.pending = 0 :=
  claim_C6 1 (by decide) false (initConfig 1 false) (Steps.refl _)

/-- C7: the first `Go` call runs the one-time setup — it marks the
`once` done, allocates the (empty) failure list, and creates the
semaphore with capacity `Concurrent` exactly when `Concurrent > 0`;
once run, the setup never runs again, and no operation (`Go`, a
goroutine body, or any interleaving step after setup) ever changes the
semaphore. -/
theorem claim_C7 (g : GroupState) (o : TaskOutcome) :
    (g.onceDone = false →
       (onceInit g).onceDone = true
       ∧ (onceInit g).errors = []
       ∧ (onceInit g).semaphore
           = (if 0 < g.concurrent then some g.concurrent.toNat else none))
    ∧ (g.onceDone = true → onceInit g = g)
    ∧ (Go g).1.semaphore = (onceInit g).semaphore
    ∧ (taskExit g o).semaphore = g.semaphore
    ∧ (∀ c c' : Config, Step c c' → c.g.onceDone = true →
        c'.g.semaphore = c.g.semaphore) := by
  refine ⟨?_, ?_, Go_semaphore g, taskExit_semaphore g o, ?_⟩
  · intro hd
    refine ⟨onceInit_onceDone g, ?_, ?_⟩
    · rw [onceInit_errors, if_neg (by simp [hd])]
    · rw [onceInit_semaphore, if_neg (by simp [hd])]
  · exact fun hd => onceInit_self hd
  · intro c c' hstep hdone
    cases hstep with
    | launch o hL => simp [launchState_semaphore, onceInit_self hdone]
    | finish o l1 l2 h => simp
    | deniedGo hd => simp [onceInit_self hdone]

/-- Witness for C7: the first call on a group bounded at 2 creates a
semaphore of capacity 2; running the setup again changes nothing. -/
theorem claim_C7_witness :
    ((onceInit (mkGroup 2 false)).onceDone = true
      ∧ (onceInit (mkGroup 2 false)).errors = []
      ∧ (onceInit (mkGroup 2 false)).semaphore
          = (if 0 < (mkGroup 2 false).concurrent
             then some (mkGroup 2 false).concurrent.toNat else none))
    ∧ onceInit (onceInit (mkGroup 2 false)) = onceInit (mkGroup 2 false) :=
  ⟨(claim_C7 (mkGroup 2 false) TaskOutcome.ok).1 rfl,
   (claim_C7 (onceInit (mkGroup 2 false)) TaskOutcome.ok).2.1 (by decide)⟩

/-- C8: on a group on which `Go` was never called the wait-group counter
is zero — `wg.Wait()` returns immediately — and `Wait` returns
`(0, nil)`. -/
theorem claim_C8 (concurrent : Int) (allowSomeFail : Bool) :
    (mkGroup concurrent allowSomeFail).pending = 0
    ∧ Wait (mkGroup concurrent allowSomeFail) = (0, none) :=
  ⟨rfl, rfl⟩

/-- C9: `Wait` leaves the group state unchanged, so two consecutive
`Wait` calls return identical results; and along every interleaving
step the failure list only grows by appending while `successCount` and
`totalTasks` never decrease — the counters are cumulative and never
reset. -/
theorem claim_C9 (c c' : Config) (hI : Inv c) (hstep : Step c c') :
    (WaitSt c.g).2 = c.g
    ∧ (WaitSt ((WaitSt c.g).2)).1 = (WaitSt c.g).1
    ∧ (∃ t, c'.g.errors = c.g.errors ++ t)
    ∧ c.g.successCount ≤ c'.g.successCount
    ∧ c.g.totalTasks ≤ c'.g.totalTasks := by
  refine ⟨WaitSt_state c.g, by rw [WaitSt_state], ?_⟩
  cases hstep with
  | launch o hL =>
      refine ⟨⟨[], ?_⟩, ?_, ?_⟩
      · by_cases hd : c.g.onceDone = true
        · simp [launchState_errors, onceInit_errors, hd]
        · have hd' : c.g.onceDone = false := by simpa using hd
          have he := (hI.2.2.2.2.1 hd').1
          simp [launchState_errors, onceInit_errors, hd', he]
      · simp
      · simp only [launchState_totalTasks]; omega
  | finish o l1 l2 h =>
      refine ⟨?_, ?_, ?_⟩
      · cases o with
        | ok => exact ⟨[], by simp [runTask_errors]⟩
        | err m => exact ⟨[m], by simp [runTask_errors]⟩
        | pan p => exact ⟨["task panic: " ++ p], by simp [runTask_errors]⟩
      · cases o <;> simp only [taskExit_successCount, runTask_successCount] <;> omega
      · simp
  | deniedGo hd =>
      have hdone : c.g.onceDone = true := deniedGo_onceDone hd.2
      exact ⟨⟨[], by simp [onceInit_self hdone]⟩, by simp [onceInit_self hdone],
        by simp [onceInit_self hdone]⟩

/-- Witness for C9 at the first launch step of an unbounded group. -/
theorem claim_C9_witness :
    (WaitSt (initConfig 0 false).g).2 = (initConfig 0 false).g
    ∧ (WaitSt ((WaitSt (initConfig 0 false).g).2)).1 = (WaitSt (initConfig 0 false).g).1
    ∧ (∃ t, (Config.mk (launchState (mkGroup 0 false)) [TaskOutcome.ok]).g.errors
          = (initConfig 0 false).g.errors ++ t)
    ∧ (initConfig 0 false).g.successCount
        ≤ (Config.mk (launchState (mkGroup 0 false)) [TaskOutcome.ok]).g.successCount
    ∧ (initConfig 0 false).g.totalTasks
        ≤ (Config.mk (launchState (mkGroup 0 false)) [TaskOutcome.ok]).g.totalTasks :=
  claim_C9 (initConfig 0 false) ⟨launchState (mkGroup 0 false), [TaskOutcome.ok]⟩
    (Inv_init 0 false)
    (Step.launch (initConfig 0 false) TaskOutcome.ok (Or.inl (by decide)))

/-- C10: with `Concurrent < 0`, the one-time setup leaves the semaphore
a nil channel (it is created only when `Concurrent > 0`) while the
bounded path is taken because `Concurrent ≠ 0`; a `Go` call that passes
the admission check therefore blocks forever on the nil-channel send,
and no launch step is ever enabled. -/
theorem claim_C10 (g : GroupState) (hneg : g.concurrent < 0) (hsem : g.semaphore = none)
    (hpass : g.allowSomeFail = true ∨ g.errors = []) :
    (Go g).2 = GoOutcome.blockedForever ∧ ¬ LaunchEnabled g := by
  have hnp : ¬ (0:Int) < g.concurrent := by omega
  have hsem1 : (onceInit g).semaphore = none := by
    rw [onceInit_semaphore]
    by_cases hd : g.onceDone = true
    · simp [hd, hsem]
    · have hd' : g.onceDone = false := by simpa using hd
      simp [hd', hnp]
  constructor
  · have hcond : ¬ (g.allowSomeFail = false ∧ getHasFailed (onceInit g) = true) := by
      rcases hpass with ha | he
      · rintro ⟨h1, -⟩; rw [ha] at h1; cases h1
      · rintro ⟨-, h2⟩
        have he1 : (onceInit g).errors = [] := by
          rw [onceInit_errors]; split <;> simp [he]
        simp [getHasFailed, he1] at h2
    have h0 : ¬ g.concurrent = 0 := by omega
    simp [Go, hsem1, addTotalTasks, h0, hcond]
  · intro hL
    rcases hL with hL | ⟨cap, hcap, -⟩
    · rw [onceInit_concurrent] at hL; omega
    · rw [hsem1] at hcap
      exact Option.noConfusion hcap

/-- Witness for C10: a group with `Concurrent = -1` whose first `Go`
call blocks forever. -/
theorem claim_C10_witness :
    (Go (mkGroup (-1) true)).2 = GoOutcome.blockedForever
    ∧ ¬ LaunchEnabled (mkGroup (-1) true) :=
  claim_C10 (mkGroup (-1) true) (by decide) rfl (Or.inl rfl)

end GTask
